import Mathlib

/-!
Verification development for the WEASEL 2.0 / MUSE 2.0 dictionary classifiers
(`_weasel_v2.py`, `_muse_v2.py`).  The Python source is shallowly embedded:
series sets are lists of instances (each a list of channels, each a list of
rational values), numpy random states are modelled as explicit draw streams,
and the per-member configuration sampling, fit orchestration, feature-block
merging and decision paths are translated function by function.
-/

set_option maxHeartbeats 1000000

/-- A series collection of shape [n_instances, n_channels, series_length]. -/
abbrev SeriesSet := List (List (List ℚ))

/-- Shape accessor `X.shape[1]`: the channel count, read off the first instance. -/
def shape1 (X : SeriesSet) : Nat := (X.headD []).length

/-- Shape accessor `X.shape[-1]` for a 3D array: the series length, read off the first channel
of the first instance. -/
def shape2 (X : SeriesSet) : Nat := ((X.headD []).headD []).length

/-- Element access `X[i, j, k]` with numpy-style zero default outside range. -/
def at3 (X : SeriesSet) (i j k : Nat) : ℚ := ((X.getD i []).getD j []).getD k 0

/-- The method `MUSE_V2._add_first_order_differences`:
`X_new = np.zeros((n, 2*c, L)); X_new[:, 0:c, :] = X;`
`diff = np.diff(X, 1); X_new[:, c:, :L-1] = diff`.
`np.diff` along the last axis gives `diff[i, j, k] = X[i, j, k+1] - X[i, j, k]`
for `k < L-1`; the final slot of each difference channel keeps its zero. -/
def addFirstOrderDifferences (X : SeriesSet) : SeriesSet :=
  let c := shape1 X
  let L := shape2 X
  (List.range X.length).map (fun i =>
    (List.range (2 * c)).map (fun j =>
      (List.range L).map (fun k =>
        if j < c then at3 X i j k
        else if k + 1 < L then at3 X i (j - c) (k + 1) - at3 X i (j - c) k
        else 0)))

/-- A per-member feature block: a dense numpy array or a scipy sparse matrix,
both carrying a row-major matrix of word counts. -/
inductive FeatureBlock where
  | dense : List (List ℚ) → FeatureBlock
  | sparse : List (List ℚ) → FeatureBlock
deriving DecidableEq

/-- The raw matrix of a feature block. -/
def FeatureBlock.raw : FeatureBlock → List (List ℚ)
  | .dense m => m
  | .sparse m => m

/-- Whether a block is in the sparse representation. -/
def FeatureBlock.isSparse : FeatureBlock → Bool
  | .dense _ => false
  | .sparse _ => true

/-- Horizontal concatenation of two row-aligned matrices. -/
def hconcat2 (a b : List (List ℚ)) : List (List ℚ) := List.zipWith (· ++ ·) a b

/-- Horizontal concatenation of a list of row-aligned matrices
(`np.concatenate(-, axis=1)` / `scipy.sparse.hstack`). -/
def hconcatAll : List (List (List ℚ)) → List (List ℚ)
  | [] => []
  | m :: rest => rest.foldl hconcat2 m

/-- The merged global matrix, tagged by the representation produced. -/
inductive MergedMatrix where
  | dense : List (List ℚ) → MergedMatrix
  | sparse : List (List ℚ) → MergedMatrix
deriving DecidableEq

/-- The merge step of `_fit` / `_transform_words`:
`if type(words[0]) is np.ndarray: np.concatenate(words, axis=1)`
`else: hstack(words)` — the dispatch inspects only the first block.  An empty
list raises an IndexError at `words[0]`, and the dense branch's
`np.concatenate` raises a ValueError when the list also contains a scipy
sparse block (both crashes modelled as `none`); `scipy.sparse.hstack`
promotes any dense blocks to sparse and succeeds on mixed lists. -/
def mergeWords : List FeatureBlock → Option MergedMatrix
  | [] => none
  | b :: rest =>
    match b with
    | .dense _ =>
      if (b :: rest).all (fun x => !x.isSparse) then
        some (.dense (hconcatAll ((b :: rest).map FeatureBlock.raw)))
      else none
    | .sparse _ => some (.sparse (hconcatAll ((b :: rest).map FeatureBlock.raw)))

/-- Whether a merge result came out of the sparse-stacking branch. -/
def usesSparsePath : Option MergedMatrix → Bool
  | some (.sparse _) => true
  | _ => false

/-- Decision scores returned by `clf.decision_function`: a 1D vector for the
binary case or a 2D per-class matrix for the multi-class case. -/
inductive Scores where
  | one : List ℚ → Scores
  | many : List (List ℚ) → Scores

/-- Numpy `np.argmax` over a row: index of the first maximal entry. -/
def argmaxIdx (row : List ℚ) : Nat :=
  (row.foldl
    (fun (acc : Nat × Nat × ℚ) v =>
      if acc.2.2 < v then (acc.2.1, acc.2.1 + 1, v) else (acc.1, acc.2.1 + 1, acc.2.2))
    (0, 0, row.headD 0)).1

/-- The index computation of `_predict_proba`:
`(scores > 0).astype(np.int)` on a 1D score vector, `scores.argmax(axis=1)`
on a 2D score matrix. -/
def decisionIndices : Scores → List Nat
  | .one s => s.map (fun v => if 0 < v then 1 else 0)
  | .many m => m.map argmaxIdx

/-- Label lookup `self.classes_[indices]`: fancy indexing of the class label array. -/
def predictLabels {α : Type} (classes : List α) (d : α) (sc : Scores) : List α :=
  (decisionIndices sc).map (fun i => classes.getD i d)

/-- A numpy `RandomState`, modelled as explicit draw streams: `ints k` feeds
the `k`-th `rng.choice` call (reduced mod the candidate-list length), and
`pow2 r` is the value of `np.int32(2 ** rng.uniform(0, np.log2(r)))` when that
expression is evaluated at ratio `r` — the float computation is folded into
the stream. -/
structure Rng where
  ints : Nat → Nat
  pow2 : ℚ → Int

/-- Choice draw `rng.choice(l)`: pick an element of `l` selected by a raw draw. -/
def rngChoice {α : Type} (draw : Nat) (l : List α) (d : α) : α :=
  l.getD (draw % l.length) d

/-- Integer range `np.arange(lo, hi + 1, 1)`. -/
def npArange (lo hi : Int) : List Int :=
  (List.range (hi + 1 - lo).toNat).map (fun (k : Nat) => lo + (k : Int))

/-- Python `int(q)` on a float quotient: truncation toward zero, modelled on
exact rationals. -/
def pyIntTrunc (q : ℚ) : Int := q.num / (q.den : Int)

/-- The configuration drawn by `_weasel_v2._parallel_fit` for one ensemble
member (draw order as in the source: window size, the uniform draw inside the
dilation expression, alphabet size, word length, norm flag, binning
strategy). -/
structure WeaselConfig where
  window_size : Int
  dilation : Int
  alphabet_size : Int
  word_length : Int
  norm : Bool
  binning_strategy : String
deriving DecidableEq

/-- The sampling prelude of `_weasel_v2._parallel_fit` (lines 342-353):
`window_size = rng.choice(window_sizes)`;
`dilation = np.maximum(1, np.int32(2 ** rng.uniform(0, np.log2((series_length - 1)/(window_size - 1)))))`;
`alphabet_size = rng.choice(alphabet_sizes)`;
`word_length = min(window_size - 2, rng.choice(word_lengths))`;
`norm = rng.choice(norm_options)`; `binning_strategy = rng.choice(binning_strategies)`. -/
def weaselSampleConfig (rng : Rng) (window_sizes alphabet_sizes word_lengths : List Int)
    (series_length : Int) (norm_options : List Bool) (binning_strategies : List String) :
    WeaselConfig :=
  let window_size := rngChoice (rng.ints 0) window_sizes 0
  let dilation :=
    max 1 (rng.pow2 (((series_length - 1 : Int) : ℚ) / ((window_size - 1 : Int) : ℚ)))
  let alphabet_size := rngChoice (rng.ints 1) alphabet_sizes 0
  let word_length := min (window_size - 2) (rngChoice (rng.ints 2) word_lengths 0)
  let norm := rngChoice (rng.ints 3) norm_options false
  let binning_strategy := rngChoice (rng.ints 4) binning_strategies ""
  ⟨window_size, dilation, alphabet_size, word_length, norm, binning_strategy⟩

/-- The configuration drawn by `_muse_v2._parallel_fit` for one ensemble
member, in source draw order (window, alphabet, word length, norm,
first-difference flag, binning strategy, then the dilation draw). -/
structure MuseConfig where
  window_size : Int
  alphabet_size : Int
  word_length : Int
  norm : Bool
  first_difference : Bool
  binning_strategy : String
  dilation : Int
deriving DecidableEq

/-- The sampling prelude of `_muse_v2._parallel_fit` (lines 346-357):
`window_size = rng.choice(window_sizes)`;
`alphabet_size = rng.choice(alphabet_sizes)`;
`word_length = min(window_size - 2, rng.choice(word_lengths))`;
`norm = rng.choice(norm_options)`;
`first_difference = rng.choice([False])`;
`binning_strategy = rng.choice(binning_strategies)`;
`dilation = max(1, np.int32(2 ** rng.uniform(0, np.log2((series_length - 1)/(window_size - 1)))))`. -/
def museSampleConfig (rng : Rng) (window_sizes alphabet_sizes word_lengths : List Int)
    (norm_options : List Bool) (binning_strategies : List String)
    (series_length : Int) : MuseConfig :=
  let window_size := rngChoice (rng.ints 0) window_sizes 0
  let alphabet_size := rngChoice (rng.ints 1) alphabet_sizes 0
  let word_length := min (window_size - 2) (rngChoice (rng.ints 2) word_lengths 0)
  let norm := rngChoice (rng.ints 3) norm_options false
  let first_difference := rngChoice (rng.ints 4) [false] false
  let binning_strategy := rngChoice (rng.ints 5) binning_strategies ""
  let dilation :=
    max 1 (rng.pow2 (((series_length - 1 : Int) : ℚ) / ((window_size - 1 : Int) : ℚ)))
  ⟨window_size, alphabet_size, word_length, norm, first_difference, binning_strategy, dilation⟩

/-- The rng selection of `_weasel_v2._parallel_fit` (lines 337-340):
`if random_state is None: rng = check_random_state(None)`
`else: rng = check_random_state(random_state + i)`.
`seedRng` is numpy's deterministic seed-to-state map; `fresh` stands for the
entropy-derived state a run obtains from `check_random_state(None)`. -/
def weaselMemberRng (seedRng : Nat → Rng) (fresh : Rng) (random_state : Option Nat)
    (i : Nat) : Rng :=
  match random_state with
  | none => fresh
  | some s => seedRng (s + i)

/-- The rng selection of `_muse_v2._parallel_fit` (lines 341-344):
`if random_state is not None: rng = check_random_state(random_state + ind)`
`else: rng = check_random_state(random_state)`. -/
def museMemberRng (seedRng : Nat → Rng) (fresh : Rng) (random_state : Option Nat)
    (ind : Nat) : Rng :=
  match random_state with
  | some s => seedRng (s + ind)
  | none => fresh

/-- The argument record of the `SFADilation` constructor call in
`_weasel_v2.getSFADilated`. -/
structure WeaselSFA where
  variance : Bool
  word_length : Int
  alphabet_size : Int
  window_size : Int
  norm : Bool
  anova : Bool
  binning_method : String
  remove_repeat_words : Bool
  bigrams : Bool
  dilation : Int
  lower_bounding : Bool
  first_difference : Bool
  feature_selection : String
  sections : Nat
  max_feature_count : Nat
  random_state : Nat
  return_sparse : Bool
  n_jobs : Nat
deriving DecidableEq, Inhabited

/-- The function `_weasel_v2.getSFADilated`: builds one `SFADilation` transformer; the
feature cap is `max_feature_count // ensemble_size`. -/
def getSFADilated (alphabet_size : Int) (alphabet_sizes : List Int) (anova bigrams : Bool)
    (binning_strategy : String) (dilation : Int) (ensemble_size : Nat)
    (feature_selection : String) (first_difference : Bool) (i : Nat)
    (lower_bounding : Bool) (max_feature_count : Nat) (n_jobs : Nat) (norm : Bool)
    (remove_repeat_words : Bool) (sections : Nat) (variance : Bool)
    (window_size word_length : Int) : WeaselSFA :=
  let _ := alphabet_sizes
  { variance := variance
    word_length := word_length
    alphabet_size := alphabet_size
    window_size := window_size
    norm := norm
    anova := anova
    binning_method := binning_strategy
    remove_repeat_words := remove_repeat_words
    bigrams := bigrams
    dilation := dilation
    lower_bounding := lower_bounding
    first_difference := first_difference
    feature_selection := feature_selection
    sections := sections
    max_feature_count := max_feature_count / ensemble_size
    random_state := i
    return_sparse := false
    n_jobs := n_jobs }

/-- The function `_weasel_v2._parallel_fit`: samples one configuration, then builds one
transformer per entry of `use_first_differences` (so one member can contribute
two transformers). -/
def weaselParallelFit (i : Nat) (series_length : Int) (rng : Rng)
    (window_sizes alphabet_sizes word_lengths : List Int) (norm_options : List Bool)
    (use_first_differences : List Bool) (binning_strategies : List String)
    (variance anova bigrams lower_bounding : Bool) (n_jobs : Nat)
    (max_feature_count : Nat) (ensemble_size : Nat) (feature_selection : String)
    (remove_repeat_words : Bool) (sections : Nat) : List WeaselSFA :=
  let cfg := weaselSampleConfig rng window_sizes alphabet_sizes word_lengths
    series_length norm_options binning_strategies
  use_first_differences.map (fun first_difference =>
    getSFADilated cfg.alphabet_size alphabet_sizes anova bigrams cfg.binning_strategy
      cfg.dilation ensemble_size feature_selection first_difference i lower_bounding
      max_feature_count n_jobs cfg.norm remove_repeat_words sections variance
      cfg.window_size cfg.word_length)

/-- The argument record of the `SFADilation` constructor call in
`_muse_v2._parallel_fit` (the source leaves `remove_repeat_words`,
`lower_bounding` and `sections` commented out, so they are absent here); the
feature cap is `int(max_feature_count / (ensemble_size * X.shape[1]))`. -/
structure MuseSFA where
  variance : Bool
  word_length : Int
  alphabet_size : Int
  window_size : Int
  norm : Bool
  anova : Bool
  binning_method : String
  bigrams : Bool
  dilation : Int
  first_difference : Bool
  feature_selection : String
  max_feature_count : Int
  random_state : Nat
  return_sparse : Bool
  n_jobs : Nat
deriving DecidableEq, Inhabited

/-- The function `_muse_v2._parallel_fit`: samples one configuration, then builds one
transformer per channel (`for dim in range(X.shape[1])`), all sharing the
member's configuration. -/
def museParallelFit (ind : Nat) (nDims : Nat) (series_length : Int) (rng : Rng)
    (window_sizes alphabet_sizes word_lengths : List Int) (norm_options : List Bool)
    (binning_strategies : List String) (variance anova bigrams : Bool) (n_jobs : Nat)
    (max_feature_count : Nat) (ensemble_size : Nat) (feature_selection : String) :
    List MuseSFA :=
  let cfg := museSampleConfig rng window_sizes alphabet_sizes word_lengths
    norm_options binning_strategies series_length
  (List.range nDims).map (fun _dim =>
    { variance := variance
      word_length := cfg.word_length
      alphabet_size := cfg.alphabet_size
      window_size := cfg.window_size
      norm := cfg.norm
      anova := anova
      binning_method := cfg.binning_strategy
      bigrams := bigrams
      dilation := cfg.dilation
      first_difference := cfg.first_difference
      feature_selection := feature_selection
      max_feature_count :=
        pyIntTrunc ((max_feature_count : ℚ) / ((ensemble_size * nDims : Nat) : ℚ))
      random_state := ind
      return_sparse := false
      n_jobs := n_jobs })

/-- The message of the `ValueError` raised by both `_fit` methods when
`min_window > max_window` (identical f-string in both files, reporting the
offending `min_window`, the computed `max_window` and the series length). -/
def windowErrMsg (minW maxW seriesLen : Int) : String :=
  "Error in WEASEL, min_window =" ++ toString minW ++ " is bigger" ++
    " than max_window =" ++ toString maxW ++ "," ++
    " series length is " ++ toString seriesLen ++
    " try set min_window to be smaller than series length in " ++
    "the constructor, but the classifier may not work at " ++
    "all with very short series"

/-- The adaptive band selection of `WEASEL_V2._fit` (lines 179-187), returning
`(ensemble_size, max_window)`:
`if n_instances < 250: max_window, ensemble_size = 24, 50`
`elif series_length < 100: 44, 100 else: 84, 150`. -/
def weaselBand (n_instances series_length : Nat) : Nat × Int :=
  if n_instances < 250 then (50, 24)
  else if series_length < 100 then (100, 44)
  else (150, 84)

/-- Constructor parameters of `WEASEL_V2` relevant to `_fit` (the remaining
attributes are fixed in `__init__`: `alphabet_sizes = [2]`,
`binning_strategies = ["equi-depth", "equi-width"]`, `anova = False`,
`variance = True`, `bigrams = False`, `lower_bounding = True`,
`remove_repeat_words = False`, `sections = 1`). -/
structure WeaselParams where
  min_window : Int := 4
  norm_options : List Bool := [false]
  word_lengths : List Int := [7, 8]
  use_first_differences : List Bool := [true, false]
  feature_selection : String := "chi2_top_k"
  max_feature_count : Nat := 30000
  random_state : Option Nat := none
  n_jobs : Nat := 4

/-- The fitted state of `WEASEL_V2._fit` that the claims refer to. -/
structure WeaselState where
  ensemble_size : Nat
  max_window : Int
  window_sizes : List Int
  members : List (List WeaselSFA)
deriving Inhabited

/-- The method `WEASEL_V2._fit`: reads the shapes, selects the adaptive band, clamps
`max_window` to the series length, raises on `min_window > max_window`, and
otherwise runs `_parallel_fit` for every member index.  `seedRng` is numpy's
deterministic seed-to-state map and `fresh i` the entropy-derived state member
`i` would obtain from `check_random_state(None)`. -/
def weaselFit (p : WeaselParams) (seedRng : Nat → Rng) (fresh : Nat → Rng)
    (X : SeriesSet) : Except String WeaselState :=
  let n_instances := X.length
  let series_length := shape2 X
  let band := weaselBand n_instances series_length
  let ensemble_size := band.1
  let max_window : Int := min (series_length : Int) band.2
  if p.min_window > max_window then
    .error (windowErrMsg p.min_window max_window (series_length : Int))
  else
    let window_sizes := npArange p.min_window max_window
    let members := (List.range ensemble_size).map (fun i =>
      weaselParallelFit i (series_length : Int)
        (weaselMemberRng seedRng (fresh i) p.random_state i)
        window_sizes [2] p.word_lengths p.norm_options p.use_first_differences
        ["equi-depth", "equi-width"] true false false true p.n_jobs
        p.max_feature_count ensemble_size p.feature_selection false 1)
    .ok { ensemble_size := ensemble_size, max_window := max_window,
          window_sizes := window_sizes, members := members }

/-- The univariate warning issued by `MUSE_V2._fit` (lines 176-179). -/
def museWarnMsg : String :=
  "MUSE Warning: Input series is univariate; MUSE is designed for" ++
    " multivariate series. It is recommended WEASEL is used instead."

/-- Constructor parameters of `MUSE_V2` relevant to `_fit` (the remaining
attributes are fixed in `__init__`: `alphabet_sizes = [2]`, `anova = False`,
`variance = True`, `bigrams = False`). -/
structure MuseParams where
  ensemble_size : Nat := 60
  max_feature_count : Nat := 20000
  min_window : Int := 4
  max_window : Int := 24
  binning_strategies : List String := ["equi-depth"]
  norm_options : List Bool := [false]
  word_lengths : List Int := [8]
  use_first_differences : Bool := true
  feature_selection : String := "chi2"
  random_state : Option Nat := none
  n_jobs : Nat := 1

/-- The channel augmentation step at the top of `MUSE_V2._fit`:
`if self.use_first_differences: X = self._add_first_order_differences(X)`. -/
def museAugment (p : MuseParams) (X : SeriesSet) : SeriesSet :=
  if p.use_first_differences then addFirstOrderDifferences X else X

/-- Result of `MUSE_V2._fit`: the warnings emitted and either the raised error
message or the fitted per-member transformer lists. -/
structure MuseFitResult where
  warnings : List String
  outcome : Except String (List (List MuseSFA))

/-- The method `MUSE_V2._fit`: optional first-difference augmentation, channel count,
univariate warning (tested on the post-augmentation channel count), the
`variance and anova` check (vacuous: `variance = True`, `anova = False` are
fixed), `max_window` clamping, the `min_window > max_window` raise, then
`_parallel_fit` for every member index. -/
def museFit (p : MuseParams) (seedRng : Nat → Rng) (fresh : Nat → Rng)
    (X : SeriesSet) : MuseFitResult :=
  let X1 := museAugment p X
  let n_dims := shape1 X1
  let warns := if n_dims = 1 then [museWarnMsg] else []
  let variance := true
  let anova := false
  if variance && anova then
    { warnings := warns,
      outcome := .error "MUSE Warning: Please set either variance or anova." }
  else
    let series_length := shape2 X1
    let max_window : Int := min (series_length : Int) p.max_window
    if p.min_window > max_window then
      { warnings := warns,
        outcome := .error (windowErrMsg p.min_window max_window (series_length : Int)) }
    else
      let window_sizes := npArange p.min_window max_window
      let members := (List.range p.ensemble_size).map (fun ind =>
        museParallelFit ind n_dims (series_length : Int)
          (museMemberRng seedRng (fresh ind) p.random_state ind)
          window_sizes [2] p.word_lengths p.norm_options p.binning_strategies
          variance anova false p.n_jobs p.max_feature_count p.ensemble_size
          p.feature_selection)
      { warnings := warns, outcome := .ok members }

/-- Two sample entropy states, standing for the states two distinct runs could
obtain from `check_random_state(None)`. -/
def rngZero : Rng := ⟨fun _ => 0, fun _ => 1⟩

/-- A second sample entropy state whose draws differ from `rngZero`. -/
def rngOne : Rng := ⟨fun _ => 1, fun _ => 1⟩

/-- The fitted member list of a MUSE fit result, empty on error. -/
def museMembers (r : MuseFitResult) : List (List MuseSFA) :=
  match r.outcome with
  | .ok ms => ms
  | .error _ => []

theorem getD_range_map {α : Type} (f : Nat → α) (m i : Nat) (d : α) :
    ((List.range m).map f).getD i d = if i < m then f i else d := by
  by_cases h : i < m
  · simp [List.getD, h, List.getElem?_map, List.getElem?_range h]
  · have : (List.range m)[i]? = none := by
      simp [List.getElem?_eq_none_iff, List.length_range, Nat.le_of_not_lt h]
    simp [List.getD, h, List.getElem?_map, this]

theorem rngChoice_mem {α : Type} (draw : Nat) (l : List α) (d : α) (h : l ≠ []) :
    rngChoice draw l d ∈ l := by
  have hlen : 0 < l.length := List.length_pos.mpr h
  have hlt : draw % l.length < l.length := Nat.mod_lt _ hlen
  rw [rngChoice, List.getD_eq_getElem l d hlt]
  exact List.getElem_mem hlt

theorem mem_npArange {lo hi x : Int} (hx : x ∈ npArange lo hi) : lo ≤ x ∧ x ≤ hi := by
  rw [npArange, List.mem_map] at hx
  obtain ⟨k, hk, hfk⟩ := hx
  rw [List.mem_range] at hk
  have h1 : (k : Int) < (hi + 1 - lo).toNat := by exact_mod_cast hk
  have h2 : ((hi + 1 - lo).toNat : Int) ≤ max (hi + 1 - lo) 0 := by
    rw [Int.toNat_eq_max]
  omega

theorem npArange_ne_nil {lo hi : Int} (h : lo ≤ hi) : npArange lo hi ≠ [] := by
  have hlen : (npArange lo hi).length = (hi + 1 - lo).toNat := by
    rw [npArange, List.length_map, List.length_range]
  intro hnil
  rw [hnil] at hlen
  simp at hlen
  omega

theorem headD_eq_getD_zero {α : Type} (l : List α) (d : α) : l.headD d = l.getD 0 d := by
  cases l <;> rfl

theorem shape1_addFirstOrderDifferences (X : SeriesSet) (h : X ≠ []) :
    shape1 (addFirstOrderDifferences X) = 2 * shape1 X := by
  have hpos : 0 < X.length := List.length_pos.mpr h
  rw [shape1, addFirstOrderDifferences, headD_eq_getD_zero, getD_range_map,
    if_pos hpos, List.length_map, List.length_range]

/-- C1: for every member index i and non-None base seed s, the per-member
configuration sampled by `_parallel_fit` (both variants) is a pure function of
(i, s): the effective rng is the deterministically seeded state for s + i, so
two runs differing only in their entropy draw identical configurations; with a
None seed the configuration depends on the run's entropy and repeated runs may
sample differently. -/
theorem member_sampling_deterministic_in_seed :
    (∀ (seedRng : Nat → Rng) (f1 f2 : Rng) (s i : Nat)
       (ws as wl : List Int) (L : Int) (no : List Bool) (bs : List String),
       weaselSampleConfig (weaselMemberRng seedRng f1 (some s) i) ws as wl L no bs =
         weaselSampleConfig (weaselMemberRng seedRng f2 (some s) i) ws as wl L no bs)
    ∧ (∀ (seedRng : Nat → Rng) (f : Rng) (s i : Nat),
       weaselMemberRng seedRng f (some s) i = seedRng (s + i))
    ∧ (∀ (seedRng : Nat → Rng) (f1 f2 : Rng) (s ind : Nat)
       (ws as wl : List Int) (no : List Bool) (bs : List String) (L : Int),
       museSampleConfig (museMemberRng seedRng f1 (some s) ind) ws as wl no bs L =
         museSampleConfig (museMemberRng seedRng f2 (some s) ind) ws as wl no bs L)
    ∧ (∀ (seedRng : Nat → Rng) (f : Rng) (s ind : Nat),
       museMemberRng seedRng f (some s) ind = seedRng (s + ind))
    ∧ weaselSampleConfig (weaselMemberRng (fun _ => rngZero) rngZero none 0)
        [4, 5] [2] [8] 50 [false] ["equi-depth"] ≠
      weaselSampleConfig (weaselMemberRng (fun _ => rngZero) rngOne none 0)
        [4, 5] [2] [8] 50 [false] ["equi-depth"] :=
  ⟨fun _ _ _ _ _ _ _ _ _ _ _ => rfl, fun _ _ _ _ => rfl,
   fun _ _ _ _ _ _ _ _ _ _ _ => rfl, fun _ _ _ _ => rfl, by decide⟩

/-- C4 counterexample: a mixed block list whose first block is dense and whose
second is sparse is NOT merged via the sparse path — the dispatch inspects
only the first block's type, enters the dense branch, and the concatenation
there fails on the sparse block instead of producing a merged matrix. -/
theorem merge_mixed_dense_first_takes_dense_path :
    usesSparsePath (mergeWords [FeatureBlock.dense [[1]], FeatureBlock.sparse [[2]]]) = false
    ∧ mergeWords [FeatureBlock.dense [[1]], FeatureBlock.sparse [[2]]] = none := by
  exact ⟨rfl, rfl⟩

/-- C4 amended: for every non-empty block list, the merger dispatches solely on
the representation of the first block.  A sparse first block always goes to
sparse stacking (which also absorbs dense later blocks); a dense first block
goes to dense concatenation, which succeeds exactly when every block is dense
and crashes when any later block is sparse — so the sparse path is used if and
only if the first block is sparse, never because of a later block. -/
theorem merge_dispatches_on_first_block (b : FeatureBlock) (rest : List FeatureBlock) :
    usesSparsePath (mergeWords (b :: rest)) = b.isSparse
    ∧ mergeWords (b :: rest) =
        (if b.isSparse then
          some (MergedMatrix.sparse (hconcatAll ((b :: rest).map FeatureBlock.raw)))
        else if (b :: rest).all (fun x => !x.isSparse) then
          some (MergedMatrix.dense (hconcatAll ((b :: rest).map FeatureBlock.raw)))
        else none) := by
  cases b with
  | sparse m => exact ⟨rfl, rfl⟩
  | dense m =>
    constructor
    · by_cases hall : (FeatureBlock.dense m :: rest).all (fun x => !x.isSparse)
      · simp [mergeWords, usesSparsePath, FeatureBlock.isSparse, hall]
      · simp [mergeWords, usesSparsePath, FeatureBlock.isSparse, hall]
    · simp [mergeWords, FeatureBlock.isSparse]

/-- C5: with exactly two classes and a single-column decision score, the
`_predict_proba` path maps a strictly positive score to `classes_[1]` and any
other score to `classes_[0]`; all-negative scores give all-`classes_[0]`
predictions. -/
theorem binary_decision_sign_test {α : Type} (c0 c1 d : α) (classes : List α)
    (h : classes = [c0, c1]) (scores : List ℚ) :
    predictLabels classes d (.one scores) =
      scores.map (fun s => if 0 < s then c1 else c0)
    ∧ ((∀ s ∈ scores, s < 0) →
        predictLabels classes d (.one scores) = List.replicate scores.length c0) := by
  subst h
  have key : predictLabels [c0, c1] d (.one scores) =
      scores.map (fun s => if 0 < s then c1 else c0) := by
    rw [predictLabels, decisionIndices, List.map_map]
    apply List.map_congr_left
    intro s _
    by_cases hs : 0 < s <;> simp [hs]
  refine ⟨key, fun hneg => ?_⟩
  rw [key]
  clear key
  induction scores with
  | nil => rfl
  | cons a t ih =>
    have ha : ¬ 0 < a := not_lt.mpr (le_of_lt (hneg a (List.mem_cons_self a t)))
    have ht := ih (fun s hs => hneg s (List.mem_cons_of_mem a hs))
    simp only [List.map_cons, List.length_cons, List.replicate_succ, if_neg ha]
    exact congrArg (List.cons c0) ht

theorem binary_decision_sign_test_witness :
    predictLabels ["A", "B"] "A" (.one [-1, -2]) = List.replicate 2 "A" :=
  (binary_decision_sign_test "A" "B" "A" ["A", "B"] rfl [-1, -2]).2 (by decide)

/-- C7: the univariate fit selects `(ensemble_size, max_window)` in three
bands — fewer than 250 instances gives (50, 24), otherwise series length below
100 gives (100, 44), otherwise (150, 84) — with the instance-count band taking
priority, and a successful fit carries the band's ensemble size and the
length-clamped band max window. -/
theorem weasel_band_selection (n L : Nat) :
    (n < 250 → weaselBand n L = (50, 24))
    ∧ (250 ≤ n → L < 100 → weaselBand n L = (100, 44))
    ∧ (250 ≤ n → 100 ≤ L → weaselBand n L = (150, 84))
    ∧ (∀ (p : WeaselParams) (sr fr : Nat → Rng) (X : SeriesSet) (s : WeaselState),
        weaselFit p sr fr X = .ok s →
        s.ensemble_size = (weaselBand X.length (shape2 X)).1
        ∧ s.max_window = min ((shape2 X : Nat) : Int) (weaselBand X.length (shape2 X)).2) := by
  refine ⟨?_, ?_, ?_, ?_⟩
  · intro h; simp [weaselBand, h]
  · intro h1 h2; simp [weaselBand, Nat.not_lt.mpr h1, h2]
  · intro h1 h2; simp [weaselBand, Nat.not_lt.mpr h1, Nat.not_lt.mpr h2]
  · intro p sr fr X s hfit
    rw [weaselFit] at hfit
    by_cases hcond : p.min_window > min ((shape2 X : Nat) : Int) (weaselBand X.length (shape2 X)).2
    · simp [hcond] at hfit
    · simp [hcond] at hfit
      rw [← hfit]
      exact ⟨rfl, rfl⟩

theorem weasel_band_selection_witness :
    weaselBand 10 50 = (50, 24) ∧ weaselBand 300 50 = (100, 44)
    ∧ weaselBand 300 200 = (150, 84) :=
  ⟨(weasel_band_selection 10 50).1 (by decide),
   (weasel_band_selection 300 50).2.1 (by decide) (by decide),
   (weasel_band_selection 300 200).2.2.1 (by decide) (by decide)⟩

theorem headD_mem {α : Type} (l : List α) (d : α) (h : l ≠ []) : l.headD d ∈ l := by
  cases l with
  | nil => exact absurd rfl h
  | cons a t => exact List.mem_cons_self a t

theorem rngChoice_single_false (draw : Nat) (d : Bool) : rngChoice draw [false] d = false := by
  simp [rngChoice, Nat.mod_one]

theorem weaselSampleConfig_fields (rng : Rng) (ws as wl : List Int) (L : Int)
    (no : List Bool) (bs : List String) :
    (weaselSampleConfig rng ws as wl L no bs).window_size = rngChoice (rng.ints 0) ws 0
    ∧ (weaselSampleConfig rng ws as wl L no bs).word_length =
        min (rngChoice (rng.ints 0) ws 0 - 2) (rngChoice (rng.ints 2) wl 0)
    ∧ (weaselSampleConfig rng ws as wl L no bs).dilation =
        max 1 (rng.pow2 (((L - 1 : Int) : ℚ) / ((rngChoice (rng.ints 0) ws 0 - 1 : Int) : ℚ))) :=
  ⟨rfl, rfl, rfl⟩

theorem museSampleConfig_fields (rng : Rng) (ws as wl : List Int)
    (no : List Bool) (bs : List String) (L : Int) :
    (museSampleConfig rng ws as wl no bs L).window_size = rngChoice (rng.ints 0) ws 0
    ∧ (museSampleConfig rng ws as wl no bs L).word_length =
        min (rngChoice (rng.ints 0) ws 0 - 2) (rngChoice (rng.ints 2) wl 0)
    ∧ (museSampleConfig rng ws as wl no bs L).dilation =
        max 1 (rng.pow2 (((L - 1 : Int) : ℚ) / ((rngChoice (rng.ints 0) ws 0 - 1 : Int) : ℚ)))
    ∧ (museSampleConfig rng ws as wl no bs L).first_difference =
        rngChoice (rng.ints 4) [false] false :=
  ⟨rfl, rfl, rfl, rfl⟩

/-- C2: for every sampled configuration (both variants) with the window drawn
from [min_window, max_window], min_window at least 2 and max_window at most
the series length, the sampled window size lies in the range, the word length
satisfies word_length ≤ window_size − 2, and the dilation — computed as the
maximum of 1 and the integer part of 2^u for the uniform draw u — is at
least 1. -/
theorem sampled_config_bounds (rng : Rng) (minW maxW L : Int)
    (as wl : List Int) (no : List Bool) (bs : List String)
    (h2 : 2 ≤ minW) (hle : minW ≤ maxW) (hL : maxW ≤ L) :
    (minW ≤ (weaselSampleConfig rng (npArange minW maxW) as wl L no bs).window_size
     ∧ (weaselSampleConfig rng (npArange minW maxW) as wl L no bs).window_size ≤ maxW
     ∧ (weaselSampleConfig rng (npArange minW maxW) as wl L no bs).word_length ≤
         (weaselSampleConfig rng (npArange minW maxW) as wl L no bs).window_size - 2
     ∧ 1 ≤ (weaselSampleConfig rng (npArange minW maxW) as wl L no bs).dilation)
    ∧ (minW ≤ (museSampleConfig rng (npArange minW maxW) as wl no bs L).window_size
     ∧ (museSampleConfig rng (npArange minW maxW) as wl no bs L).window_size ≤ maxW
     ∧ (museSampleConfig rng (npArange minW maxW) as wl no bs L).word_length ≤
         (museSampleConfig rng (npArange minW maxW) as wl no bs L).window_size - 2
     ∧ 1 ≤ (museSampleConfig rng (npArange minW maxW) as wl no bs L).dilation) := by
  have hbounds := mem_npArange
    (rngChoice_mem (rng.ints 0) (npArange minW maxW) 0 (npArange_ne_nil hle))
  obtain ⟨hw1, hw2, hw3⟩ := weaselSampleConfig_fields rng (npArange minW maxW) as wl L no bs
  obtain ⟨hm1, hm2, hm3, _⟩ := museSampleConfig_fields rng (npArange minW maxW) as wl no bs L
  refine ⟨⟨?_, ?_, ?_, ?_⟩, ⟨?_, ?_, ?_, ?_⟩⟩
  · rw [hw1]; exact hbounds.1
  · rw [hw1]; exact hbounds.2
  · rw [hw2, hw1]; exact min_le_left _ _
  · rw [hw3]; exact le_max_left _ _
  · rw [hm1]; exact hbounds.1
  · rw [hm1]; exact hbounds.2
  · rw [hm2, hm1]; exact min_le_left _ _
  · rw [hm3]; exact le_max_left _ _

theorem sampled_config_bounds_witness :
    1 ≤ (weaselSampleConfig rngZero (npArange 4 10) [2] [7, 8] 20 [false] ["equi-depth"]).dilation
    ∧ (museSampleConfig rngZero (npArange 4 10) [2] [7, 8] [false] ["equi-depth"] 20).word_length ≤
        (museSampleConfig rngZero (npArange 4 10) [2] [7, 8] [false] ["equi-depth"] 20).window_size - 2 :=
  ⟨(sampled_config_bounds rngZero 4 10 20 [2] [7, 8] [false] ["equi-depth"]
      (by decide) (by decide) (by decide)).1.2.2.2,
   (sampled_config_bounds rngZero 4 10 20 [2] [7, 8] [false] ["equi-depth"]
      (by decide) (by decide) (by decide)).2.2.2.1⟩

/-- C3: in both fit variants, max_window is first clamped to
min(series_length, configured max_window) and a configuration error is raised
if and only if min_window exceeds the clamped max_window; the error message
reports the offending min_window, the computed max_window and the series
length, and the raise happens before any ensemble work — the raised result is
identical whatever rng streams would drive the ensemble members. -/
theorem fit_window_check (p : WeaselParams) (sr fr : Nat → Rng) (X : SeriesSet)
    (q : MuseParams) (Y : SeriesSet) :
    (p.min_window > min ((shape2 X : Nat) : Int) (weaselBand X.length (shape2 X)).2 →
      weaselFit p sr fr X = .error (windowErrMsg p.min_window
        (min ((shape2 X : Nat) : Int) (weaselBand X.length (shape2 X)).2)
        ((shape2 X : Nat) : Int)))
    ∧ ((∃ e, weaselFit p sr fr X = .error e) ↔
        p.min_window > min ((shape2 X : Nat) : Int) (weaselBand X.length (shape2 X)).2)
    ∧ (∀ sr' fr' : Nat → Rng,
        p.min_window > min ((shape2 X : Nat) : Int) (weaselBand X.length (shape2 X)).2 →
        weaselFit p sr' fr' X = weaselFit p sr fr X)
    ∧ (q.min_window > min ((shape2 (museAugment q Y) : Nat) : Int) q.max_window →
      (museFit q sr fr Y).outcome = .error (windowErrMsg q.min_window
        (min ((shape2 (museAugment q Y) : Nat) : Int) q.max_window)
        ((shape2 (museAugment q Y) : Nat) : Int)))
    ∧ ((∃ e, (museFit q sr fr Y).outcome = .error e) ↔
        q.min_window > min ((shape2 (museAugment q Y) : Nat) : Int) q.max_window)
    ∧ (∀ sr' fr' : Nat → Rng,
        q.min_window > min ((shape2 (museAugment q Y) : Nat) : Int) q.max_window →
        museFit q sr' fr' Y = museFit q sr fr Y) := by
  have werr : ∀ (sr fr : Nat → Rng),
      p.min_window > min ((shape2 X : Nat) : Int) (weaselBand X.length (shape2 X)).2 →
      weaselFit p sr fr X = .error (windowErrMsg p.min_window
        (min ((shape2 X : Nat) : Int) (weaselBand X.length (shape2 X)).2)
        ((shape2 X : Nat) : Int)) := by
    intro sr fr h
    rw [weaselFit]
    exact if_pos h
  have wok : ∀ (sr fr : Nat → Rng),
      ¬ p.min_window > min ((shape2 X : Nat) : Int) (weaselBand X.length (shape2 X)).2 →
      ∀ e, weaselFit p sr fr X ≠ .error e := by
    intro sr fr h e he
    rw [weaselFit, if_neg h] at he
    exact Except.noConfusion he
  have merr : ∀ (sr fr : Nat → Rng),
      q.min_window > min ((shape2 (museAugment q Y) : Nat) : Int) q.max_window →
      (museFit q sr fr Y).outcome = .error (windowErrMsg q.min_window
        (min ((shape2 (museAugment q Y) : Nat) : Int) q.max_window)
        ((shape2 (museAugment q Y) : Nat) : Int)) := by
    intro sr fr h
    rw [museFit]
    simp only [Bool.and_false, Bool.false_eq_true, if_false]
    rw [if_pos h]
  have mok : ∀ (sr fr : Nat → Rng),
      ¬ q.min_window > min ((shape2 (museAugment q Y) : Nat) : Int) q.max_window →
      ∀ e, (museFit q sr fr Y).outcome ≠ .error e := by
    intro sr fr h e he
    rw [museFit] at he
    simp only [Bool.and_false, Bool.false_eq_true, if_false] at he
    rw [if_neg h] at he
    exact Except.noConfusion he
  refine ⟨werr sr fr, ⟨?_, fun h => ⟨_, werr sr fr h⟩⟩,
    fun sr' fr' h => (werr sr' fr' h).trans (werr sr fr h).symm,
    merr sr fr, ⟨?_, fun h => ⟨_, merr sr fr h⟩⟩, ?_⟩
  · rintro ⟨e, he⟩
    by_contra hnot
    exact wok sr fr hnot e he
  · rintro ⟨e, he⟩
    by_contra hnot
    exact mok sr fr hnot e he
  · intro sr' fr' h
    rw [museFit, museFit]
    simp only [Bool.and_false, Bool.false_eq_true, if_false, if_pos h]

theorem fit_window_check_witness :
    weaselFit { min_window := 60 } (fun _ => rngZero) (fun _ => rngZero)
        [[List.replicate 50 (0 : ℚ)]] =
      .error (windowErrMsg 60
        (min ((shape2 [[List.replicate 50 (0 : ℚ)]] : Nat) : Int)
          (weaselBand ([[List.replicate 50 (0 : ℚ)]] : SeriesSet).length
            (shape2 [[List.replicate 50 (0 : ℚ)]])).2)
        ((shape2 [[List.replicate 50 (0 : ℚ)]] : Nat) : Int))
    ∧ (museFit { min_window := 60, ensemble_size := 1 } (fun _ => rngZero) (fun _ => rngZero)
        [[[1, 2, 3, 4, 5]]]).outcome =
      .error (windowErrMsg 60
        (min ((shape2 (museAugment { min_window := 60, ensemble_size := 1 } [[[1, 2, 3, 4, 5]]]) : Nat) : Int)
          (({ min_window := 60, ensemble_size := 1 } : MuseParams)).max_window)
        ((shape2 (museAugment { min_window := 60, ensemble_size := 1 } [[[1, 2, 3, 4, 5]]]) : Nat) : Int)) :=
  ⟨(fit_window_check { min_window := 60 } (fun _ => rngZero) (fun _ => rngZero)
      [[List.replicate 50 (0 : ℚ)]] {} []).1 (by decide),
   (fit_window_check {} (fun _ => rngZero) (fun _ => rngZero) []
      { min_window := 60, ensemble_size := 1 } [[[1, 2, 3, 4, 5]]]).2.2.2.1 (by decide)⟩

/-- C8: the per-member feature cap handed to every constructed extractor is
max_feature_count integer-divided by ensemble_size in the univariate variant,
and the integer truncation of max_feature_count / (ensemble_size *
channel_count) in the multivariate variant, where channel_count is the
post-augmentation (possibly doubled) channel count of the fitted data. -/
theorem per_member_feature_cap :
    (∀ (i : Nat) (L : Int) (rng : Rng) (ws as wl : List Int) (no ufd : List Bool)
       (bs : List String) (v an bg lb : Bool) (nj mfc es : Nat) (fs : String)
       (rrw : Bool) (sec : Nat),
       ∀ t ∈ weaselParallelFit i L rng ws as wl no ufd bs v an bg lb nj mfc es fs rrw sec,
         t.max_feature_count = mfc / es)
    ∧ (∀ (ind nD : Nat) (L : Int) (rng : Rng) (ws as wl : List Int) (no : List Bool)
       (bs : List String) (v an bg : Bool) (nj mfc es : Nat) (fs : String),
       ∀ t ∈ museParallelFit ind nD L rng ws as wl no bs v an bg nj mfc es fs,
         t.max_feature_count = pyIntTrunc ((mfc : ℚ) / ((es * nD : Nat) : ℚ)))
    ∧ (∀ (q : MuseParams) (sr fr : Nat → Rng) (Y : SeriesSet) (members : List (List MuseSFA)),
       (museFit q sr fr Y).outcome = .ok members → Y ≠ [] →
       ∀ mem ∈ members, ∀ t ∈ mem,
         t.max_feature_count = pyIntTrunc ((q.max_feature_count : ℚ) /
           ((q.ensemble_size *
             (if q.use_first_differences then 2 * shape1 Y else shape1 Y) : Nat) : ℚ))) := by
  have partW : ∀ (i : Nat) (L : Int) (rng : Rng) (ws as wl : List Int) (no ufd : List Bool)
      (bs : List String) (v an bg lb : Bool) (nj mfc es : Nat) (fs : String)
      (rrw : Bool) (sec : Nat),
      ∀ t ∈ weaselParallelFit i L rng ws as wl no ufd bs v an bg lb nj mfc es fs rrw sec,
        t.max_feature_count = mfc / es := by
    intro i L rng ws as wl no ufd bs v an bg lb nj mfc es fs rrw sec t ht
    rw [weaselParallelFit, List.mem_map] at ht
    obtain ⟨fd, _, rfl⟩ := ht
    rfl
  have partM : ∀ (ind nD : Nat) (L : Int) (rng : Rng) (ws as wl : List Int) (no : List Bool)
      (bs : List String) (v an bg : Bool) (nj mfc es : Nat) (fs : String),
      ∀ t ∈ museParallelFit ind nD L rng ws as wl no bs v an bg nj mfc es fs,
        t.max_feature_count = pyIntTrunc ((mfc : ℚ) / ((es * nD : Nat) : ℚ)) := by
    intro ind nD L rng ws as wl no bs v an bg nj mfc es fs t ht
    rw [museParallelFit, List.mem_map] at ht
    obtain ⟨dim, _, rfl⟩ := ht
    rfl
  refine ⟨partW, partM, ?_⟩
  intro q sr fr Y members hfit hY mem hmem t ht
  have hdims : shape1 (museAugment q Y) =
      if q.use_first_differences then 2 * shape1 Y else shape1 Y := by
    rw [museAugment]
    by_cases hu : q.use_first_differences
    · rw [if_pos hu, if_pos hu, shape1_addFirstOrderDifferences Y hY]
    · rw [if_neg hu, if_neg hu]
  rw [museFit] at hfit
  simp only [Bool.and_false, Bool.false_eq_true, if_false] at hfit
  by_cases hcond : q.min_window > min ((shape2 (museAugment q Y) : Nat) : Int) q.max_window
  · rw [if_pos hcond] at hfit
    exact Except.noConfusion hfit
  · rw [if_neg hcond] at hfit
    simp only [Except.ok.injEq] at hfit
    rw [← hfit] at hmem
    rw [List.mem_map] at hmem
    obtain ⟨ind, _, rfl⟩ := hmem
    have := partM ind (shape1 (museAugment q Y)) ((shape2 (museAugment q Y) : Nat) : Int)
      _ _ _ _ _ _ _ _ _ _ _ _ _ t ht
    rw [this, hdims]

theorem per_member_feature_cap_witness :
    ((weaselParallelFit 0 10 rngZero (npArange 4 10) [2] [7, 8] [false] [true, false]
        ["equi-depth"] true false false true 4 30000 50 "chi2_top_k" false 1).headD
        default).max_feature_count = 30000 / 50
    ∧ ((museParallelFit 0 6 20 rngZero (npArange 4 10) [2] [8] [false] ["equi-depth"]
        true false false 1 20000 60 "chi2").headD default).max_feature_count =
        pyIntTrunc ((20000 : ℚ) / ((60 * 6 : Nat) : ℚ))
    ∧ (((museMembers (museFit { ensemble_size := 1 } (fun _ => rngZero) (fun _ => rngZero)
        [[[1, 2, 3, 4, 5]]])).headD []).headD default).max_feature_count =
        pyIntTrunc ((20000 : ℚ) /
          ((1 * (if (true : Bool) then 2 * shape1 ([[[1, 2, 3, 4, 5]]] : SeriesSet)
                 else shape1 ([[[1, 2, 3, 4, 5]]] : SeriesSet)) : Nat) : ℚ)) :=
  ⟨per_member_feature_cap.1 0 10 rngZero (npArange 4 10) [2] [7, 8] [false] [true, false]
      ["equi-depth"] true false false true 4 30000 50 "chi2_top_k" false 1
      _ (headD_mem _ _ (by decide)),
   per_member_feature_cap.2.1 0 6 20 rngZero (npArange 4 10) [2] [8] [false] ["equi-depth"]
      true false false 1 20000 60 "chi2" _ (headD_mem _ _ (by decide)),
   per_member_feature_cap.2.2 { ensemble_size := 1 } (fun _ => rngZero) (fun _ => rngZero)
      [[[1, 2, 3, 4, 5]]]
      (museMembers (museFit { ensemble_size := 1 } (fun _ => rngZero) (fun _ => rngZero)
        [[[1, 2, 3, 4, 5]]]))
      rfl (by decide)
      _ (headD_mem _ _ (by decide))
      _ (headD_mem _ _ (by decide))⟩

/-- C10: in the multivariate variant, the sampler draws the per-configuration
first-difference flag from the singleton set containing False, so every
extractor of every fitted ensemble member carries first_difference = False;
differencing can only enter through the up-front channel augmentation. -/
theorem muse_extractor_first_difference_false :
    (∀ (draw : Nat) (d : Bool), rngChoice draw [false] d = false)
    ∧ (∀ (rng : Rng) (ws as wl : List Int) (no : List Bool) (bs : List String) (L : Int),
        (museSampleConfig rng ws as wl no bs L).first_difference = false)
    ∧ (∀ (ind nD : Nat) (L : Int) (rng : Rng) (ws as wl : List Int) (no : List Bool)
        (bs : List String) (v an bg : Bool) (nj mfc es : Nat) (fs : String),
        ∀ t ∈ museParallelFit ind nD L rng ws as wl no bs v an bg nj mfc es fs,
          t.first_difference = false)
    ∧ (∀ (q : MuseParams) (sr fr : Nat → Rng) (Y : SeriesSet) (members : List (List MuseSFA)),
        (museFit q sr fr Y).outcome = .ok members →
        ∀ mem ∈ members, ∀ t ∈ mem, t.first_difference = false) := by
  have part1 : ∀ (draw : Nat) (d : Bool), rngChoice draw [false] d = false :=
    rngChoice_single_false
  have part2 : ∀ (rng : Rng) (ws as wl : List Int) (no : List Bool) (bs : List String) (L : Int),
      (museSampleConfig rng ws as wl no bs L).first_difference = false := by
    intro rng ws as wl no bs L
    exact (museSampleConfig_fields rng ws as wl no bs L).2.2.2.trans (part1 _ _)
  have part3 : ∀ (ind nD : Nat) (L : Int) (rng : Rng) (ws as wl : List Int) (no : List Bool)
      (bs : List String) (v an bg : Bool) (nj mfc es : Nat) (fs : String),
      ∀ t ∈ museParallelFit ind nD L rng ws as wl no bs v an bg nj mfc es fs,
        t.first_difference = false := by
    intro ind nD L rng ws as wl no bs v an bg nj mfc es fs t ht
    rw [museParallelFit, List.mem_map] at ht
    obtain ⟨dim, _, rfl⟩ := ht
    exact part2 rng ws as wl no bs L
  refine ⟨part1, part2, part3, ?_⟩
  intro q sr fr Y members hfit mem hmem t ht
  rw [museFit] at hfit
  simp only [Bool.and_false, Bool.false_eq_true, if_false] at hfit
  by_cases hcond : q.min_window > min ((shape2 (museAugment q Y) : Nat) : Int) q.max_window
  · rw [if_pos hcond] at hfit
    exact Except.noConfusion hfit
  · rw [if_neg hcond] at hfit
    simp only [Except.ok.injEq] at hfit
    rw [← hfit] at hmem
    rw [List.mem_map] at hmem
    obtain ⟨ind, _, rfl⟩ := hmem
    exact part3 _ _ _ _ _ _ _ _ _ _ _ _ _ _ _ _ t ht

theorem muse_extractor_first_difference_false_witness :
    (((museMembers (museFit { ensemble_size := 1 } (fun _ => rngZero) (fun _ => rngZero)
        [[[1, 2, 3, 4, 5]]])).headD []).headD default).first_difference = false :=
  muse_extractor_first_difference_false.2.2.2
    { ensemble_size := 1 } (fun _ => rngZero) (fun _ => rngZero) [[[1, 2, 3, 4, 5]]]
    (museMembers (museFit { ensemble_size := 1 } (fun _ => rngZero) (fun _ => rngZero)
      [[[1, 2, 3, 4, 5]]]))
    rfl
    _ (headD_mem _ _ (by decide))
    _ (headD_mem _ _ (by decide))

theorem at3_addFirstOrderDifferences (X : SeriesSet) (i j k : Nat)
    (hi : i < X.length) (hj : j < 2 * shape1 X) (hk : k < shape2 X) :
    at3 (addFirstOrderDifferences X) i j k =
      if j < shape1 X then at3 X i j k
      else if k + 1 < shape2 X then
        at3 X i (j - shape1 X) (k + 1) - at3 X i (j - shape1 X) k
      else 0 := by
  simp only [addFirstOrderDifferences, at3]
  rw [getD_range_map, if_pos hi, getD_range_map, if_pos hj, getD_range_map, if_pos hk]

/-- C6 counterexample: on the channel [0, 1, 3] the augmentation produces the
difference channel [1, 2, 0] — the diff values sit at the front with the zero
pad at the end (right-padded) — which differs from the left-zero-padded
channel [0, 1, 2] the claim describes. -/
theorem add_first_order_differences_not_left_padded :
    addFirstOrderDifferences [[[0, 1, 3]]] = [[[0, 1, 3], [1, 2, 0]]]
    ∧ addFirstOrderDifferences [[[0, 1, 3]]] ≠ [[[0, 1, 3], [0, 1, 2]]] := by
  constructor <;>
    norm_num [addFirstOrderDifferences, at3, shape1, shape2, List.range_succ]

/-- C6 amended: the augmentation maps [instances, channels, length] to
[instances, 2*channels, length]; the first `channels` entries equal the
original data, the remaining entries hold the first discrete difference
(length−1 values) RIGHT-zero-padded to `length` (the zero sits in the final
slot); a constant channel yields an all-zero difference channel, and the
transform is a pure function with no fitted state. -/
theorem add_first_order_differences_spec (X : SeriesSet) (c L : Nat) (hne : X ≠ [])
    (hc : ∀ inst ∈ X, inst.length = c)
    (hL : ∀ inst ∈ X, ∀ ch ∈ inst, ch.length = L) :
    (addFirstOrderDifferences X).length = X.length
    ∧ (∀ inst ∈ addFirstOrderDifferences X, inst.length = 2 * c ∧ ∀ ch ∈ inst, ch.length = L)
    ∧ (∀ i j k, i < X.length → j < c → k < L →
        at3 (addFirstOrderDifferences X) i j k = at3 X i j k)
    ∧ (∀ i j k, i < X.length → j < c → k + 1 < L →
        at3 (addFirstOrderDifferences X) i (c + j) k = at3 X i j (k + 1) - at3 X i j k)
    ∧ (∀ i j, i < X.length → j < c → 0 < L →
        at3 (addFirstOrderDifferences X) i (c + j) (L - 1) = 0)
    ∧ (∀ i j v, i < X.length → j < c → (∀ k, k < L → at3 X i j k = v) →
        ∀ k, k < L → at3 (addFirstOrderDifferences X) i (c + j) k = 0) := by
  obtain ⟨inst0, rest, rfl⟩ := List.exists_cons_of_ne_nil hne
  have hs1 : shape1 (inst0 :: rest) = c := hc inst0 (List.mem_cons_self _ _)
  have hs2 : 0 < c → shape2 (inst0 :: rest) = L := by
    intro hcpos
    have h0 : inst0.length = c := hc inst0 (List.mem_cons_self _ _)
    have : inst0 ≠ [] := by
      intro hnil
      rw [hnil] at h0
      simp at h0
      omega
    obtain ⟨ch0, chs, rfl⟩ := List.exists_cons_of_ne_nil this
    exact hL _ (List.mem_cons_self _ _) ch0 (List.mem_cons_self _ _)
  refine ⟨?_, ?_, ?_, ?_, ?_, ?_⟩
  · simp [addFirstOrderDifferences]
  · intro inst hmem
    rw [addFirstOrderDifferences, List.mem_map] at hmem
    obtain ⟨i, _, rfl⟩ := hmem
    constructor
    · simp [hs1]
    · intro ch hch
      rw [List.mem_map] at hch
      obtain ⟨j, hj, rfl⟩ := hch
      rw [List.mem_range] at hj
      have hcpos : 0 < c := by
        by_contra hc0
        rw [hs1] at hj
        omega
      simp [hs2 hcpos]
  · intro i j k hi hj hk
    have hcpos : 0 < c := by omega
    rw [at3_addFirstOrderDifferences _ _ _ _ hi (by rw [hs1]; omega) (by rw [hs2 hcpos]; omega)]
    rw [if_pos (by rw [hs1]; omega)]
  · intro i j k hi hj hk
    have hcpos : 0 < c := by omega
    rw [at3_addFirstOrderDifferences _ _ _ _ hi (by rw [hs1]; omega) (by rw [hs2 hcpos]; omega)]
    rw [if_neg (by rw [hs1]; omega), if_pos (by rw [hs2 hcpos]; omega), hs1,
      Nat.add_sub_cancel_left]
  · intro i j hi hj hLpos
    have hcpos : 0 < c := by omega
    rw [at3_addFirstOrderDifferences _ _ _ _ hi (by rw [hs1]; omega) (by rw [hs2 hcpos]; omega)]
    rw [if_neg (by rw [hs1]; omega), if_neg (by rw [hs2 hcpos]; omega)]
  · intro i j v hi hj hconst k hk
    have hcpos : 0 < c := by omega
    rw [at3_addFirstOrderDifferences _ _ _ _ hi (by rw [hs1]; omega) (by rw [hs2 hcpos]; omega)]
    rw [if_neg (by rw [hs1]; omega)]
    by_cases hk1 : k + 1 < L
    · rw [if_pos (by rw [hs2 hcpos]; omega), hs1, Nat.add_sub_cancel_left,
        hconst (k + 1) hk1, hconst k hk]
      ring
    · rw [if_neg (by rw [hs2 hcpos]; omega)]

theorem add_first_order_differences_spec_witness :
    at3 (addFirstOrderDifferences [[[1, 2], [3, 5]]]) 0 2 0 =
      at3 [[[1, 2], [3, 5]]] 0 0 1 - at3 [[[1, 2], [3, 5]]] 0 0 0
    ∧ (addFirstOrderDifferences [[[1, 2], [3, 5]]]).length = 1 :=
  ⟨(add_first_order_differences_spec [[[1, 2], [3, 5]]] 2 2 (by decide) (by decide)
      (by decide)).2.2.2.1 0 0 0 (by decide) (by decide) (by decide),
   (add_first_order_differences_spec [[[1, 2], [3, 5]]] 2 2 (by decide) (by decide)
      (by decide)).1⟩

theorem museFit_warnings (q : MuseParams) (sr fr : Nat → Rng) (Y : SeriesSet) :
    (museFit q sr fr Y).warnings =
      if shape1 (museAugment q Y) = 1 then [museWarnMsg] else [] := by
  rw [museFit]
  simp only [Bool.and_false, Bool.false_eq_true, if_false]
  by_cases hcond : q.min_window > min ((shape2 (museAugment q Y) : Nat) : Int) q.max_window
  · rw [if_pos hcond]
  · rw [if_neg hcond]

theorem shape1_museAugment_eq_one (q : MuseParams) (Y : SeriesSet) :
    shape1 (museAugment q Y) = 1 ↔ (q.use_first_differences = false ∧ shape1 Y = 1) := by
  rw [museAugment]
  by_cases hu : q.use_first_differences
  · rw [if_pos hu]
    constructor
    · intro h1
      exfalso
      by_cases hY : Y = []
      · rw [hY] at h1
        simp [shape1, addFirstOrderDifferences] at h1
      · rw [shape1_addFirstOrderDifferences Y hY] at h1
        omega
    · rintro ⟨hfalse, _⟩
      rw [hu] at hfalse
      exact absurd hfalse (by simp)
  · rw [if_neg hu]
    simp [Bool.eq_false_iff.mpr hu]

/-- C9 counterexample: a univariate input with use_first_differences left at
its default True is augmented to two channels before the dimension check, so
the fit issues no warning at all — contradicting the claim that the warning
appears regardless of the use_first_differences setting. -/
theorem muse_univariate_no_warning_with_differences :
    (({ ensemble_size := 1 } : MuseParams)).use_first_differences = true
    ∧ shape1 ([[[1, 2, 3, 4, 5]]] : SeriesSet) = 1
    ∧ (museFit { ensemble_size := 1 } (fun _ => rngZero) (fun _ => rngZero)
        [[[1, 2, 3, 4, 5]]]).warnings = [] := by
  refine ⟨rfl, rfl, ?_⟩
  decide

/-- C9 amended: the multivariate fit warns exactly when the
POST-augmentation channel count is 1, i.e. when the input is univariate AND
use_first_differences is False; with use_first_differences True a univariate
input is silently augmented to two channels.  The warning is non-fatal: the
only error the fit can raise is the window-bound configuration error. -/
theorem muse_univariate_warning_condition (q : MuseParams) (sr fr : Nat → Rng)
    (Y : SeriesSet) :
    ((museFit q sr fr Y).warnings = [museWarnMsg] ↔
      (q.use_first_differences = false ∧ shape1 Y = 1))
    ∧ ((museFit q sr fr Y).warnings = [] ∨ (museFit q sr fr Y).warnings = [museWarnMsg])
    ∧ (∀ e, (museFit q sr fr Y).outcome = .error e →
        e = windowErrMsg q.min_window
          (min ((shape2 (museAugment q Y) : Nat) : Int) q.max_window)
          ((shape2 (museAugment q Y) : Nat) : Int)) := by
  refine ⟨?_, ?_, ?_⟩
  · rw [museFit_warnings]
    rw [← shape1_museAugment_eq_one q Y]
    by_cases h1 : shape1 (museAugment q Y) = 1
    · simp [h1]
    · simp [h1]
  · rw [museFit_warnings]
    by_cases h1 : shape1 (museAugment q Y) = 1
    · right; rw [if_pos h1]
    · left; rw [if_neg h1]
  · intro e he
    rw [museFit] at he
    simp only [Bool.and_false, Bool.false_eq_true, if_false] at he
    by_cases hcond : q.min_window > min ((shape2 (museAugment q Y) : Nat) : Int) q.max_window
    · rw [if_pos hcond] at he
      simp only [Except.error.injEq] at he
      exact he.symm
    · rw [if_neg hcond] at he
      exact Except.noConfusion he

theorem muse_univariate_warning_condition_witness :
    (museFit { ensemble_size := 1, use_first_differences := false }
        (fun _ => rngZero) (fun _ => rngZero) [[[1, 2, 3, 4, 5]]]).warnings =
      [museWarnMsg] :=
  (muse_univariate_warning_condition { ensemble_size := 1, use_first_differences := false }
    (fun _ => rngZero) (fun _ => rngZero) [[[1, 2, 3, 4, 5]]]).1.mpr ⟨rfl, rfl⟩
